import Mathlib

/- Verification of the GlazeWM IPC client (client.ts): connection lifecycle,
request/reply correlation, event-subscription multiplexing, and the callback
registry. Machine integers do not occur; all data is strings, optional
fields and opaque payloads. Callback references are modelled as natural
numbers standing for JS reference identity (two registrations of the same
function share one number; distinct closures get distinct numbers). -/

namespace GlazeWM

/- JavaScript promise: settles at most once; `resolve`/`reject` on an
already-settled promise are no-ops (first settle wins). A settled call's
transient listener is deregistered by the `.finally` clause; since a settled
promise absorbs later settles, keeping the listener in the model does not
change any outcome. -/
inductive PromiseState (α : Type) where
| pending
| resolved (v : α)
| rejected (msg : String)
deriving DecidableEq

def PromiseState.resolveWith {α : Type} (s : PromiseState α) (v : α) : PromiseState α :=
match s with
| .pending => .resolved v
| s => s

def PromiseState.rejectWith {α : Type} (s : PromiseState α) (m : String) : PromiseState α :=
match s with
| .pending => .rejected m
| s => s

/- The parsed `data` field of a server envelope: an optional event-type
discriminator (present on event payloads, absent on query/command replies)
plus an opaque remaining payload. Modelled from the spec: the envelope shape
of section 6 (the ServerMessage type lives outside src/). -/
structure WmData where
mk ::
type : Option String
payload : Nat
deriving DecidableEq

/- Inbound envelope: `{ messageType, clientMessage?, data?, error? }`.
Modelled from the spec, section 6 (the ServerMessage type lives outside
src/); field use is taken from client.ts. -/
structure ServerMessage where
mk ::
messageType : String
clientMessage : Option String
data : Option WmData
error : Option String
deriving DecidableEq

/- JavaScript truthiness of an optional string field: `undefined`, `null`
and the empty string are falsy. -/
def truthy : Option String → Bool
| none => false
| some s => s ≠ ""

/- client.ts lines 82-84: `serverMessage.messageType === 'client_response'
&& serverMessage.clientMessage === message`. A missing clientMessage never
equals a string. -/
def isReplyMessage (message : String) (sm : ServerMessage) : Bool :=
sm.messageType == "client_response" && sm.clientMessage == some message

def squote : String := String.singleton (Char.ofNat 39)

/- client.ts line 88: the template literal of the rejection reason. -/
def replyErrorText (message error : String) : String :=
"Server reply to message " ++ squote ++ message ++ squote ++ " has error: " ++ error

/- client.ts lines 76-95: body of the transient onMessage listener of
`sendAndWaitReply`, acting on the call's promise. The `reject` branch and
the `resolve` branch are two separate `if` statements (no `else`): on a
matching envelope with a truthy error, `reject` runs and then `resolve` is
also reached, but the promise is already settled so it is a no-op. -/
def replyListener (message : String) (sm : ServerMessage)
(st : PromiseState (Option WmData)) : PromiseState (Option WmData) :=
let st1 :=
  if isReplyMessage message sm && truthy sm.error then
    st.rejectWith (replyErrorText message (sm.error.getD ""))
  else st
if isReplyMessage message sm then st1.resolveWith sm.data else st1

/- One pending `sendAndWaitReply` call: the encoded request text it sent and
the state of the promise it returned. -/
structure PendingCall where
mk ::
message : String
state : PromiseState (Option WmData)
deriving DecidableEq

/- client.ts line 380: `socket.onmessage` fans one inbound envelope out to
every registered message callback; each pending call's transient listener
updates that call's own promise. -/
def dispatchReply (sm : ServerMessage) (calls : List PendingCall) : List PendingCall :=
calls.map (fun c => { c with state := replyListener c.message sm c.state })

/- Envelopes processed in arrival order on the stream. -/
def dispatchReplies (msgs : List ServerMessage) (calls : List PendingCall) : List PendingCall :=
msgs.foldl (fun cs sm => dispatchReply sm cs) calls

/- A listener whose request text does not match the envelope leaves its
promise untouched. -/
theorem replyListener_no_match (msg : String) (sm : ServerMessage)
(st : PromiseState (Option WmData)) (h : isReplyMessage msg sm = false) :
replyListener msg sm st = st := by
simp [replyListener, h]

/-- C1: an inbound envelope settles exactly the pending call whose sent text
equals the envelope's clientMessage (with messageType client_response); with
two concurrent calls of distinct texts A and B and replies arriving in the
order B then A, the B call resolves first with B's payload and the A call
resolves second with A's payload, neither receiving the other's. -/
theorem reply_correlation_correct (A B : String) (dA dB : Option WmData)
(hAB : A ≠ B) :
(∀ (msg : String) (sm : ServerMessage) (st : PromiseState (Option WmData)),
  isReplyMessage msg sm = false → replyListener msg sm st = st) ∧
dispatchReply ⟨"client_response", some B, dB, none⟩
    [⟨A, .pending⟩, ⟨B, .pending⟩]
  = [⟨A, .pending⟩, ⟨B, .resolved dB⟩] ∧
dispatchReplies
    [⟨"client_response", some B, dB, none⟩, ⟨"client_response", some A, dA, none⟩]
    [⟨A, .pending⟩, ⟨B, .pending⟩]
  = [⟨A, .resolved dA⟩, ⟨B, .resolved dB⟩] := by
refine ⟨replyListener_no_match, ?_, ?_⟩ <;>
  simp [dispatchReplies, dispatchReply, replyListener, isReplyMessage,
    truthy, PromiseState.resolveWith, hAB, Ne.symm hAB]

/-- C1 witness: concrete instance with A = query monitors, B = query
workspaces. -/
theorem reply_correlation_correct_witness :
("query monitors" : String) ≠ "query workspaces" ∧
((∀ (msg : String) (sm : ServerMessage) (st : PromiseState (Option WmData)),
  isReplyMessage msg sm = false → replyListener msg sm st = st) ∧
dispatchReply ⟨"client_response", some "query workspaces", some ⟨none, 2⟩, none⟩
    [⟨"query monitors", .pending⟩, ⟨"query workspaces", .pending⟩]
  = [⟨"query monitors", .pending⟩,
     ⟨"query workspaces", .resolved (some ⟨none, 2⟩)⟩] ∧
dispatchReplies
    [⟨"client_response", some "query workspaces", some ⟨none, 2⟩, none⟩,
     ⟨"client_response", some "query monitors", some ⟨none, 1⟩, none⟩]
    [⟨"query monitors", .pending⟩, ⟨"query workspaces", .pending⟩]
  = [⟨"query monitors", .resolved (some ⟨none, 1⟩)⟩,
     ⟨"query workspaces", .resolved (some ⟨none, 2⟩)⟩]) :=
⟨by decide,
 reply_correlation_correct "query monitors" "query workspaces"
   (some ⟨none, 1⟩) (some ⟨none, 2⟩) (by decide)⟩

/-- C5 counterexample: an envelope whose error field is set to the empty
string and whose clientMessage matches the request resolves the pending call
with its data instead of rejecting it, because the reject branch tests the
error field for JavaScript truthiness and the empty string is falsy. -/
theorem reply_error_empty_string_resolves :
replyListener "query monitors"
    ⟨"client_response", some "query monitors", some ⟨none, 5⟩, some ""⟩
    .pending
  = .resolved (some ⟨none, 5⟩) ∧
replyListener "query monitors"
    ⟨"client_response", some "query monitors", some ⟨none, 5⟩, some ""⟩
    .pending
  ≠ .rejected (replyErrorText "query monitors" "") := by
constructor
· rfl
· decide

/-- C5 (amended): a matching reply envelope whose error field is set to a
non-empty string rejects the pending call — it does not resolve it — and the
rejection message contains both the original request text and the
server-supplied error text. -/
theorem reply_error_rejects (t err : String) (d : Option WmData)
(h : err ≠ "") :
replyListener t ⟨"client_response", some t, d, some err⟩ .pending
  = .rejected (replyErrorText t err) ∧
∃ s1 s2 s3, replyErrorText t err = s1 ++ t ++ s2 ++ err ++ s3 := by
constructor
· simp [replyListener, isReplyMessage, truthy, h, PromiseState.rejectWith,
    PromiseState.resolveWith, Option.getD]
· exact ⟨"Server reply to message " ++ squote, squote ++ " has error: ", "",
    by simp [replyErrorText, String.append_assoc]⟩

/-- C5 witness: concrete rejection with the error text from the spec's
scenario. -/
theorem reply_error_rejects_witness :
("no such container" : String) ≠ "" ∧
(replyListener "command close"
    ⟨"client_response", some "command close", none, some "no such container"⟩
    .pending
  = .rejected (replyErrorText "command close" "no such container") ∧
∃ s1 s2 s3, replyErrorText "command close" "no such container"
  = s1 ++ "command close" ++ s2 ++ "no such container" ++ s3) :=
⟨by decide,
 reply_error_rejects "command close" "no such container" none (by decide)⟩

/- client.ts lines 353-359: the unregister capability's removal loop,
`for (const [index, callback] of callbacks.entries()) { if (callback ===
newCallback) callbacks.splice(index, 1); }`. The array iterator keeps a live
index into the mutated array: after a splice at index i the iterator resumes
at index i + 1 of the shortened array, so the element that shifted into
position i is never examined. Callback references are numbers. -/
def spliceRemove (t : Nat) (l : List Nat) (i : Nat) : List Nat :=
if h : i < l.length then
  if l[i] = t then spliceRemove t (l.eraseIdx i) (i + 1)
  else spliceRemove t l (i + 1)
else l
termination_by l.length - i
decreasing_by
· have := List.length_eraseIdx (l := l) (i := i)
  simp [h] at this
  omega
· omega

/- client.ts lines 346-360, `_registerCallback`: the returned capability runs
the removal loop from index 0. -/
def unregisterCallbackRun (t : Nat) (l : List Nat) : List Nat :=
spliceRemove t l 0

theorem spliceRemove_nil (t i : Nat) : spliceRemove t [] i = [] := by
rw [spliceRemove.eq_def]
simp

theorem spliceRemove_cons_succ (t x : Nat) (xs : List Nat) (i : Nat) :
spliceRemove t (x :: xs) (i + 1) = x :: spliceRemove t xs i := by
rw [spliceRemove.eq_def t (x :: xs) (i + 1), spliceRemove.eq_def t xs i]
by_cases hi : i < xs.length
· have hi2 : i + 1 < (x :: xs).length := by simp; omega
  rw [dif_pos hi2, dif_pos hi]
  have hg : (x :: xs)[i + 1] = xs[i] := by simp
  rw [hg]
  by_cases ha : xs[i] = t
  · rw [if_pos ha, if_pos ha, List.eraseIdx_cons_succ]
    exact spliceRemove_cons_succ t x (xs.eraseIdx i) (i + 1)
  · rw [if_neg ha, if_neg ha]
    exact spliceRemove_cons_succ t x xs (i + 1)
· have hi2 : ¬ (i + 1 < (x :: xs).length) := by simp; omega
  rw [dif_neg hi2, dif_neg hi]
termination_by xs.length - i
decreasing_by
· have := List.length_eraseIdx (l := xs) (i := i)
  simp [hi] at this
  omega
· omega

theorem spliceRemove_cons_zero (t x : Nat) (xs : List Nat) :
spliceRemove t (x :: xs) 0
  = if x = t then spliceRemove t xs 1 else x :: spliceRemove t xs 0 := by
rw [spliceRemove.eq_def t (x :: xs) 0]
have h0 : 0 < (x :: xs).length := by simp
rw [dif_pos h0]
have hg : (x :: xs)[0] = x := rfl
rw [hg, List.eraseIdx_cons_zero]
by_cases hx : x = t
· rw [if_pos hx, if_pos hx]
· rw [if_neg hx, if_neg hx, spliceRemove_cons_succ]

theorem spliceRemove_not_mem (t : Nat) (l : List Nat) (h : t ∉ l) :
∀ i, spliceRemove t l i = l := by
induction l with
| nil => intro i; exact spliceRemove_nil t i
| cons x xs ih =>
  have hx : x ≠ t := fun he => h (he ▸ List.mem_cons_self x xs)
  have hxs : t ∉ xs := fun hm => h (List.mem_cons_of_mem x hm)
  intro i
  cases i with
  | zero => rw [spliceRemove_cons_zero]; simp [hx, ih hxs 0]
  | succ j => rw [spliceRemove_cons_succ]; simp [ih hxs j]

theorem spliceRemove_single (t : Nat) (pre post : List Nat)
(hpre : t ∉ pre) (hpost : t ∉ post) :
spliceRemove t (pre ++ t :: post) 0 = pre ++ post := by
induction pre with
| nil =>
  simp only [List.nil_append]
  rw [spliceRemove_cons_zero]
  simp [spliceRemove_not_mem t post hpost 1]
| cons p ps ih =>
  have hp : p ≠ t := fun he => hpre (he ▸ List.mem_cons_self p ps)
  have hps : t ∉ ps := fun hm => hpre (List.mem_cons_of_mem p hm)
  simp only [List.cons_append]
  rw [spliceRemove_cons_zero]
  simp [hp, ih hps]

/-- C8 counterexample: a callback registered twice around another listener
(list [0, 1, 0], unregistering reference 0) has both of its occurrences
removed by one invocation of the capability — the loop resumes past the
shifted element and then meets the second occurrence — leaving [1] instead
of the claimed [1, 0] (removal of exactly the first entry). -/
theorem unregister_removes_more_than_first :
unregisterCallbackRun 0 [0, 1, 0] = [1] ∧
unregisterCallbackRun 0 [0, 1, 0] ≠ [1, 0] := by
have h : unregisterCallbackRun 0 [0, 1, 0] = [1] := by
  unfold unregisterCallbackRun
  rw [spliceRemove_cons_zero]
  simp [spliceRemove_cons_succ, spliceRemove_cons_zero, spliceRemove_nil]
exact ⟨h, by simp [h]⟩

/-- C8 (amended): provided the registered callback reference occurs exactly
once in the list, invoking the unregister capability removes exactly that
entry, preserving the relative order of all remaining entries; invoking the
capability a second time has no further effect; and entries other than the
callback — including one registered afterward at the same index — are never
removed. -/
theorem unregister_single_occurrence (t : Nat) (pre post : List Nat)
(hpre : t ∉ pre) (hpost : t ∉ post) :
unregisterCallbackRun t (pre ++ t :: post) = pre ++ post ∧
unregisterCallbackRun t (pre ++ post) = pre ++ post ∧
∀ y, y ≠ t →
  (unregisterCallbackRun t (pre ++ t :: post)).count y
    = (pre ++ t :: post).count y := by
have hnm : t ∉ pre ++ post := by
  intro hm
  rcases List.mem_append.mp hm with h1 | h2
  · exact hpre h1
  · exact hpost h2
refine ⟨spliceRemove_single t pre post hpre hpost,
  spliceRemove_not_mem t (pre ++ post) hnm 0, ?_⟩
intro y hy
unfold unregisterCallbackRun
rw [spliceRemove_single t pre post hpre hpost]
simp [List.count_append, List.count_cons, hy]

/-- C8 witness: concrete registry [7, 3] with capability for 5 after 5 was
removed; first invocation on [7, 5, 3] removes exactly 5. -/
theorem unregister_single_occurrence_witness :
(5 : Nat) ∉ [7] ∧ (5 : Nat) ∉ [3] ∧
(unregisterCallbackRun 5 ([7] ++ 5 :: [3]) = [7] ++ [3] ∧
 unregisterCallbackRun 5 ([7] ++ [3]) = [7] ++ [3] ∧
 ∀ y, y ≠ 5 →
   (unregisterCallbackRun 5 ([7] ++ 5 :: [3])).count y
     = ([7] ++ 5 :: [3]).count y) :=
⟨by decide, by decide, unregister_single_occurrence 5 [7] [3] (by decide) (by decide)⟩

/- client.ts lines 279-281: `serverMessage.messageType === 'event_subscription'
&& events.includes(serverMessage.data?.type!)`. When `data` is absent, or has
no event-type discriminator, the optional chain yields no value and the
membership test is false. -/
def isSubscribedEvent (events : List String) (sm : ServerMessage) : Bool :=
sm.messageType == "event_subscription" &&
  (match sm.data.bind WmData.type with
   | some t => events.contains t
   | none => false)

/- client.ts lines 273-286: body of the standing onMessage listener of
`subscribeMany`: on a matching envelope the handler is invoked once with the
envelope's data; otherwise not at all. The result lists the handler
invocations this envelope produces. -/
def subscriptionListener (events : List String) (sm : ServerMessage) :
List (Option WmData) :=
if isSubscribedEvent events sm then [sm.data] else []

/- Handler invocations over a stream of envelopes in arrival order. -/
def subscriptionCalls (events : List String) (msgs : List ServerMessage) :
List (Option WmData) :=
(msgs.map (subscriptionListener events)).flatten

/- Handler invocations while accounting for the listener registry: the
standing listener with reference `lid` only runs while it is registered
(client.ts line 380: `onmessage` iterates `_onMessageCallbacks`). -/
def deliveredCalls (registry : List Nat) (lid : Nat) (events : List String)
(msgs : List ServerMessage) : List (Option WmData) :=
if registry.contains lid then subscriptionCalls events msgs else []

/- Result of `subscribeMany` (client.ts lines 263-295) as a function of the
outcome of the initial subscribe request: on rejection the `await` rethrows
before `this.onMessage(...)` is reached, so the registry is returned
unchanged; on success the fresh standing listener is pushed. -/
structure SubscribeManyResult where
mk ::
result : Except String Nat
registry : List Nat

def subscribeManyRun (registry : List Nat) (freshListener : Nat)
(subscribeReply : Except String Nat) : SubscribeManyResult :=
match subscribeReply with
| .error e => ⟨.error e, registry⟩
| .ok subId => ⟨.ok subId, registry ++ [freshListener]⟩

/- client.ts lines 288-294: the unlisten capability returned by
`subscribeMany`. Its first statement is the synchronous `unlisten()`, which
removes the standing listener from the registry; only afterwards is the
unsubscribe request sent and its acknowledgement awaited. The record holds
the registry as it stands after that first synchronous step, together with
the unsubscribe request text whose reply is still outstanding. -/
structure UnlistenRun where
mk ::
registryAfterDeregister : List Nat
unsubscribeRequest : String
deriving DecidableEq

def unlistenCapability (lid : Nat) (subId : Nat) (registry : List Nat) :
UnlistenRun :=
⟨unregisterCallbackRun lid registry, "unsubscribe " ++ toString subId⟩

theorem isSubscribedEvent_iff (events : List String) (sm : ServerMessage) :
isSubscribedEvent events sm = true ↔
  (sm.messageType = "event_subscription" ∧
    ∃ d, sm.data = some d ∧ ∃ t, d.type = some t ∧ t ∈ events) := by
cases hd : sm.data with
| none => simp [isSubscribedEvent, hd]
| some d =>
  cases ht : d.type with
  | none => simp [isSubscribedEvent, hd, ht]
  | some t => simp [isSubscribedEvent, hd, ht]

/-- C4: a subscription registered for event-type set S invokes its handler
if and only if the inbound envelope's messageType is event_subscription and
its data's event-type discriminator is a member of S; exactly once per
matching envelope, with that envelope's payload, in arrival order (the
invocation sequence equals the arrival-ordered sequence of matching
envelopes' payloads). -/
theorem subscription_filtering (events : List String)
(msgs : List ServerMessage) :
subscriptionCalls events msgs
  = (msgs.filter (isSubscribedEvent events)).map ServerMessage.data ∧
∀ sm : ServerMessage,
  isSubscribedEvent events sm = true ↔
    (sm.messageType = "event_subscription" ∧
      ∃ d, sm.data = some d ∧ ∃ t, d.type = some t ∧ t ∈ events) := by
refine ⟨?_, fun sm => isSubscribedEvent_iff events sm⟩
induction msgs with
| nil => rfl
| cons sm rest ih =>
  by_cases h : isSubscribedEvent events sm
  · simp [subscriptionCalls, subscriptionListener, h, List.filter_cons] at ih ⊢
    exact ih
  · simp [subscriptionCalls, subscriptionListener, h, List.filter_cons] at ih ⊢
    exact ih

/-- C9: when the initial subscribe request rejects, subscribeMany rejects
and installs no standing message listener — the message-listener registry is
unchanged. -/
theorem subscribeMany_failure_installs_nothing (registry : List Nat)
(freshListener : Nat) (e : String) :
subscribeManyRun registry freshListener (.error e)
  = ⟨.error e, registry⟩ := by
rfl

/-- C3: invoking the unlisten capability deregisters the standing listener
as its first synchronous step, before the unsubscribe acknowledgement is
awaited; afterwards — however long the acknowledgement takes and whatever
further envelopes arrive, of previously-subscribed types included — the
handler is never invoked again. The listener reference is fresh, so it is
not among the previously registered callbacks. -/
theorem unlisten_stops_delivery (events : List String) (old : List Nat)
(lid subId : Nat) (hfresh : lid ∉ old) (msgs : List ServerMessage) :
(unlistenCapability lid subId (old ++ [lid])).registryAfterDeregister = old ∧
deliveredCalls
    (unlistenCapability lid subId (old ++ [lid])).registryAfterDeregister
    lid events msgs
  = [] := by
have h1 : (unlistenCapability lid subId (old ++ [lid])).registryAfterDeregister
    = old := by
  show unregisterCallbackRun lid (old ++ [lid]) = old
  unfold unregisterCallbackRun
  have : old ++ [lid] = old ++ lid :: [] := rfl
  rw [this, spliceRemove_single lid old [] hfresh (by simp)]
  simp
refine ⟨h1, ?_⟩
rw [h1]
simp [deliveredCalls, hfresh]

/-- C3 witness: registry [4] plus fresh listener 9; after the capability's
deregistration step no envelope, matching or not, reaches the handler. -/
theorem unlisten_stops_delivery_witness :
(9 : Nat) ∉ [4] ∧
((unlistenCapability 9 2 ([4] ++ [9])).registryAfterDeregister = [4] ∧
deliveredCalls (unlistenCapability 9 2 ([4] ++ [9])).registryAfterDeregister
    9 ["focus_changed"]
    [⟨"event_subscription", none, some ⟨some "focus_changed", 3⟩, none⟩]
  = []) :=
⟨by decide,
 unlisten_stops_delivery ["focus_changed"] [4] 9 2 (by decide)
   [⟨"event_subscription", none, some ⟨some "focus_changed", 3⟩, none⟩]⟩

/- The underlying WebSocket handle: an identity and the standard readyState
(0 CONNECTING, 1 OPEN, 2 CLOSING, 3 CLOSED). -/
structure SocketObj where
mk ::
id : Nat
readyState : Nat
deriving DecidableEq

def OPEN : Nat := 1

def CLOSING : Nat := 2

/- client.ts lines 47-50 plus a ghost counter: `_socket`,
`_createSocketPromise`, and how many times `_createSocket()` has run. The
promise is named by the index of the `_createSocket` call that produced it. -/
structure ClientState where
mk ::
socket : Option SocketObj
createSocketPromise : Option Nat
createCalls : Nat
deriving DecidableEq

def initState : ClientState := ⟨none, none, 0⟩

/- Where a `connect()` caller suspends after its synchronous prefix:
awaiting the socket-creation promise, returning at once because the socket
is already open, or awaiting an onConnect event in `_waitForConnection`. -/
inductive ConnectPhase where
| awaitCreate (p : Nat)
| opened
| awaitOpen
deriving DecidableEq

/- client.ts lines 215-225 and 394-404: the synchronous prefix of
`connect()` up to its first suspension point. With no socket, the caller
either adopts the already in-flight `_createSocketPromise` or invokes
`_createSocket()` and stores its promise; with a socket present,
`_waitForConnection` returns at once when the readyState is OPEN and
otherwise registers an onConnect waiter. All of this runs without
interleaving on the single event-loop thread. -/
def connectStep (s : ClientState) : ClientState × ConnectPhase :=
match s.socket with
| some so => (s, if so.readyState = OPEN then .opened else .awaitOpen)
| none =>
  match s.createSocketPromise with
  | some p => (s, .awaitCreate p)
  | none =>
    let s2 : ClientState :=
      ⟨none, some s.createCalls, s.createCalls + 1⟩
    (s2, .awaitCreate s.createCalls)

/- N concurrent `connect()` calls before any stream exists: each caller runs
its synchronous prefix before any of them is resumed. -/
def connectCallsN : Nat → ClientState × List ConnectPhase
| 0 => (initState, [])
| n + 1 =>
  let sp := connectCallsN n
  let sp2 := connectStep sp.1
  (sp2.1, sp.2 ++ [sp2.2])

/- client.ts lines 382-383 and 399-403: the stream's open event fans out to
every registered onConnect callback; each `_waitForConnection` waiter
resolves its promise. -/
def openDispatch (waiters : List (PromiseState Unit)) : List (PromiseState Unit) :=
waiters.map (fun st => st.resolveWith ())

theorem connectCallsN_spec (n : Nat) :
connectCallsN (n + 1)
  = (⟨none, some 0, 1⟩, List.replicate (n + 1) (.awaitCreate 0)) := by
induction n with
| zero => rfl
| succ m ih =>
  show connectCallsN (m + 1 + 1) = _
  rw [connectCallsN, ih]
  simp [connectStep, List.replicate_succ']

/-- C2: for any number n + 1 of connect() calls made while no stream exists
and the attempt may still be in flight, exactly one _createSocket invocation
occurs, every caller awaits that same single in-flight promise (the one
produced by creation call 0), and once the stream's open event fires every
one of the pending waiters resolves. -/
theorem single_inflight_connect (n : Nat) :
(connectCallsN (n + 1)).1.createCalls = 1 ∧
(∀ p ∈ (connectCallsN (n + 1)).2, p = ConnectPhase.awaitCreate 0) ∧
openDispatch (List.replicate (n + 1) (.pending : PromiseState Unit))
  = List.replicate (n + 1) (.resolved ()) := by
rw [connectCallsN_spec]
refine ⟨rfl, ?_, ?_⟩
· intro p hp
  exact List.eq_of_mem_replicate hp
· simp [openDispatch, PromiseState.resolveWith]

/- client.ts lines 230-232: `closeConnection` is `this._socket?.close()`;
it neither clears `_socket` nor `_createSocketPromise`, and `close()` moves
the socket's readyState to CLOSING. -/
def closeConnection (s : ClientState) : ClientState :=
{ s with socket := s.socket.map (fun so => { so with readyState := CLOSING }) }

/- Client-side lifecycle actions: the synchronous prefix of a `connect()`
call, a `closeConnection()` call, and the resumption that runs when the
socket-creation promise resolves (`this._socket = await socketPromise`,
client.ts line 221) delivering a socket with some readyState. -/
inductive ClientAction where
| connectCall
| closeCall
| createResolved (rs : Nat)
deriving DecidableEq

def applyAction (s : ClientState) (a : ClientAction) : ClientState :=
match a with
| .connectCall => (connectStep s).1
| .closeCall => closeConnection s
| .createResolved rs =>
  match s.createSocketPromise with
  | some p => { s with socket := some ⟨p, rs⟩ }
  | none => s

def runActions (acts : List ClientAction) : ClientState :=
acts.foldl applyAction initState

/- Invariant: `_createSocket` runs only when `_createSocketPromise` is
absent, and nothing ever clears that field. -/
def ConnInv (s : ClientState) : Prop :=
s.createCalls ≤ 1 ∧ (s.createSocketPromise = none → s.createCalls = 0)

theorem applyAction_preserves (s : ClientState) (a : ClientAction)
(h : ConnInv s) : ConnInv (applyAction s a) := by
obtain ⟨h1, h2⟩ := h
cases a with
| connectCall =>
  cases hs : s.socket with
  | some so =>
    have he : applyAction s .connectCall = s := by
      simp [applyAction, connectStep, hs]
    rw [he]; exact ⟨h1, h2⟩
  | none =>
    cases hp : s.createSocketPromise with
    | some p =>
      have he : applyAction s .connectCall = s := by
        simp [applyAction, connectStep, hs, hp]
      rw [he]; exact ⟨h1, h2⟩
    | none =>
      have h0 : s.createCalls = 0 := h2 hp
      have he : applyAction s .connectCall
          = ⟨none, some s.createCalls, s.createCalls + 1⟩ := by
        simp [applyAction, connectStep, hs, hp]
      rw [he]
      exact ⟨by simp [h0], fun hn => by simp at hn⟩
| closeCall => exact ⟨h1, h2⟩
| createResolved rs =>
  cases hp : s.createSocketPromise with
  | some p =>
    have he : applyAction s (.createResolved rs)
        = { s with socket := some ⟨p, rs⟩ } := by
      simp [applyAction, hp]
    rw [he]
    exact ⟨h1, fun hn => h2 hn⟩
  | none =>
    have he : applyAction s (.createResolved rs) = s := by
      simp [applyAction, hp]
    rw [he]; exact ⟨h1, h2⟩

theorem foldl_preserves_ConnInv (acts : List ClientAction) :
∀ s : ClientState, ConnInv s → ConnInv (acts.foldl applyAction s) := by
induction acts with
| nil => intro s h; exact h
| cons a rest ih => intro s h; exact ih _ (applyAction_preserves s a h)

/-- C10: closeConnection leaves _socket and _createSocketPromise set, so a
later connect() (or a send operation's implicit connect) skips socket
creation, reuses the closed socket, and _waitForConnection suspends on an
onConnect waiter; over any sequence of lifecycle actions at most one
_createSocket invocation ever occurs. -/
theorem close_then_connect_reuses_socket (s : ClientState) (so : SocketObj)
(h : s.socket = some so) :
(closeConnection s).socket = some { so with readyState := CLOSING } ∧
(closeConnection s).createSocketPromise = s.createSocketPromise ∧
(closeConnection s).createCalls = s.createCalls ∧
connectStep (closeConnection s) = (closeConnection s, ConnectPhase.awaitOpen) ∧
∀ acts : List ClientAction, (runActions acts).createCalls ≤ 1 := by
refine ⟨by simp [closeConnection, h], rfl, rfl, ?_, ?_⟩
· simp [connectStep, closeConnection, h, OPEN, CLOSING]
· intro acts
  exact (foldl_preserves_ConnInv acts initState ⟨by simp [initState], fun _ => rfl⟩).1

/-- C10 witness: a client holding an open socket produced by the single
creation call; after closing, connect() reuses it and waits for an open
event. -/
theorem close_then_connect_reuses_socket_witness :
(⟨some ⟨0, OPEN⟩, some 0, 1⟩ : ClientState).socket = some ⟨0, OPEN⟩ ∧
((closeConnection ⟨some ⟨0, OPEN⟩, some 0, 1⟩).socket
    = some ⟨0, CLOSING⟩ ∧
 (closeConnection ⟨some ⟨0, OPEN⟩, some 0, 1⟩).createSocketPromise
    = (⟨some ⟨0, OPEN⟩, some 0, 1⟩ : ClientState).createSocketPromise ∧
 (closeConnection ⟨some ⟨0, OPEN⟩, some 0, 1⟩).createCalls
    = (⟨some ⟨0, OPEN⟩, some 0, 1⟩ : ClientState).createCalls ∧
 connectStep (closeConnection ⟨some ⟨0, OPEN⟩, some 0, 1⟩)
    = (closeConnection ⟨some ⟨0, OPEN⟩, some 0, 1⟩, ConnectPhase.awaitOpen) ∧
 ∀ acts : List ClientAction, (runActions acts).createCalls ≤ 1) :=
⟨rfl, close_then_connect_reuses_socket ⟨some ⟨0, OPEN⟩, some 0, 1⟩ ⟨0, OPEN⟩ rfl⟩

/- How the implicit `connect()` inside `sendAndWaitReply` settles. -/
inductive ConnectResult where
| opens
| fails (e : String)

/- client.ts lines 68-97: the state of the promise returned by
`sendAndWaitReply`, as a function of how the implicit connect() settles and
of the reply envelopes subsequently dispatched. The executor passed to
`new Promise` is an async arrow function: when `await this.connect()`
throws, the exception is captured by the executor's own async-function
promise, which `new Promise` discards — it neither resolves nor rejects the
outer promise, the request is never sent and the listener never installed,
so the outer promise stays pending forever. -/
def sendAndWaitReplyResult (message : String) (conn : ConnectResult)
(replies : List ServerMessage) : PromiseState (Option WmData) :=
match conn with
| .fails _ => PromiseState.pending
| .opens =>
  replies.foldl (fun st sm => replyListener message sm st) PromiseState.pending

/-- C6: when the implicit connect() triggered by a send operation fails, the
promise returned by sendAndWaitReply never settles — it stays pending no
matter what arrives later, instead of rejecting with a connection error as
the specification requires (the rejection is swallowed by the async promise
executor). -/
theorem sendAndWaitReply_connect_failure_never_settles (message e : String)
(replies : List ServerMessage) :
sendAndWaitReplyResult message (.fails e) replies = PromiseState.pending :=
rfl

/- An inbound stream payload: either one that decodes into the envelope
shape or undecodable text. -/
inductive RawPayload where
| valid (sm : ServerMessage)
| invalid (text : String)
deriving DecidableEq

/- The inbound decoder, JSON.parse: throws on undecodable input. -/
def jsonParse : RawPayload → Except String ServerMessage
| .valid sm => .ok sm
| .invalid text => .error ("Unexpected token in JSON: " ++ text)

/- The two kinds of message listener this client registers: a transient
reply waiter (client.ts line 76) and a standing subscription listener
(client.ts line 273). -/
inductive MsgListener where
| replyWait (message : String)
| subscription (events : List String)
deriving DecidableEq

/- Both listener kinds begin by decoding the payload with JSON.parse
(client.ts lines 77-79 and 274-276); there is no try/catch, so on
undecodable input the exception propagates out of the callback. -/
def runMsgListener (l : MsgListener) (raw : RawPayload) : Except String Unit :=
match jsonParse raw with
| .error e => .error e
| .ok _ => .ok ()

/- client.ts lines 379-380: `socket.onmessage = e =>
this._onMessageCallbacks.forEach(callback => callback(e))`. An exception
thrown by a callback aborts the forEach, so the remaining callbacks are
skipped for this message event. Returns the listeners invoked for this
payload, in registration order, and the outcome; the callback list itself
is not modified by dispatch. -/
def dispatchRaw (ls : List MsgListener) (raw : RawPayload) :
List MsgListener × Except String Unit :=
match ls with
| [] => ([], .ok ())
| l :: rest =>
  match runMsgListener l raw with
  | .error e => ([l], .error e)
  | .ok _ =>
    let ir := dispatchRaw rest raw
    (l :: ir.1, ir.2)

/-- C7 counterexample: with two registered message listeners, an
undecodable payload makes the first listener's JSON.parse throw, aborting
the forEach: the second listener is never invoked for that payload,
contradicting the claim that every registered message listener is still
invoked. -/
theorem corrupt_payload_skips_second_listener :
(dispatchRaw [.replyWait "query monitors", .subscription ["focus_changed"]]
    (.invalid "nonsense")).1
  = [.replyWait "query monitors"] ∧
(dispatchRaw [.replyWait "query monitors", .subscription ["focus_changed"]]
    (.invalid "nonsense")).1
  ≠ [.replyWait "query monitors", .subscription ["focus_changed"]] := by
constructor
· rfl
· decide

/-- C7 (amended): an undecodable inbound payload makes the decode in the
first registered listener throw, aborting that fan-out: that listener alone
is invoked and every later-registered listener is skipped for that payload.
No teardown occurs — dispatch leaves the listener registry untouched — and
every decodable payload, before or after the corrupt one, is dispatched to
all registered listeners. -/
theorem corrupt_payload_aborts_dispatch (l : MsgListener)
(rest : List MsgListener) (text : String) (sm : ServerMessage) :
dispatchRaw (l :: rest) (.invalid text)
  = ([l], .error ("Unexpected token in JSON: " ++ text)) ∧
(dispatchRaw (l :: rest) (.valid sm)).1 = l :: rest ∧
(dispatchRaw (l :: rest) (.valid sm)).2 = .ok () := by
refine ⟨rfl, ?_, ?_⟩ <;>
· induction rest with
  | nil => simp [dispatchRaw, runMsgListener, jsonParse]
  | cons x xs ih => simp_all [dispatchRaw, runMsgListener, jsonParse]

end GlazeWM
